import Mathlib

/-
  Verification of the NebulaChat realtime core against its specification.

  The definitions below are a shallow embedding of the JavaScript source:
  - `src/backend/objects/Room.js` (Durable Object: sessions map, message
    routing, call signaling, friend handling),
  - `src/backend/worker.js` (worker-side connection map and routing),
  - the in-memory room worker variant (rooms map with a 1000-message cap)
    and the socket.io call-signaling variant (`call-user` handler).

  JavaScript `Map` objects are modelled as association lists in insertion
  order: `Map.set` replaces the value of an existing key in place or appends
  a fresh binding at the tail, `Map.delete` removes the (unique) binding of
  the key, `Map.get` returns the first binding.  `Set` objects are modelled
  as duplicate-free lists in insertion order.  WebSocket sends are modelled
  by returning the list of performed deliveries in emission order.
-/

namespace NebulaChat

/-- JS `Map.get`: first binding of the key, if any. -/
def lookupMap {κ α : Type} [DecidableEq κ] : List (κ × α) → κ → Option α
  | [], _ => none
  | p :: rest, k => if p.1 = k then some p.2 else lookupMap rest k

/-- JS `Map.set`: replace the value of an existing binding in place, otherwise
append a fresh binding at the tail. -/
def mapSet {κ α : Type} [DecidableEq κ] : List (κ × α) → κ → α → List (κ × α)
  | [], k, v => [(k, v)]
  | p :: rest, k, v => if p.1 = k then (k, v) :: rest else p :: mapSet rest k v

/-- JS `Map.delete`: remove the first binding of the key (a `Map` holds at most
one); deleting an absent key leaves the map unchanged. -/
def mapDelete {κ α : Type} [DecidableEq κ] : List (κ × α) → κ → List (κ × α)
  | [], _ => []
  | p :: rest, k => if p.1 = k then rest else p :: mapDelete rest k

/-- Number of bindings carrying key `k`. -/
def countKey {κ α : Type} [DecidableEq κ] (l : List (κ × α)) (k : κ) : Nat :=
  (l.filter (fun p => p.1 = k)).length

/-- The `Map` invariant: keys are pairwise distinct. -/
def keysNodup {κ α : Type} (l : List (κ × α)) : Prop :=
  (l.map Prod.fst).Nodup

instance {κ α : Type} [DecidableEq κ] (l : List (κ × α)) :
    Decidable (keysNodup l) := by
  unfold keysNodup
  infer_instance

/-- JS `Set.add`: append if absent (JS `Set` keeps insertion order). -/
def setAdd (l : List String) (x : String) : List String :=
  if x ∈ l then l else l ++ [x]

/-- JS `s.startsWith(p)`. -/
def jsStartsWith (s p : String) : Bool :=
  p.data.isPrefixOf s.data

/-- Dropping the first `n` characters of a JS string (used to model
the replace call removing the first `dm-` occurrence, under the guard that `channelId` starts with
`"dm-"`, where replacing the first occurrence is exactly dropping the
3-character head). -/
def jsDrop (s : String) (n : Nat) : String :=
  ⟨s.data.drop n⟩

/-- JS `s.substring(0, n)`. -/
def jsTake (s : String) (n : Nat) : String :=
  ⟨s.data.take n⟩

/-- JS falsiness of an optional string (`undefined` and `""` are falsy). -/
def jsFalsy : Option String → Bool
  | none => true
  | some s => s.isEmpty

/-- A live transport endpoint.  `readyState = 1` is OPEN.  `connId`
distinguishes distinct socket objects. -/
structure Conn where
  connId : Nat
  readyState : Nat
  deriving DecidableEq, Repr

/-- The message record built by `handleMessage_Create` in Room.js. -/
structure Message where
  id : String
  channel_id : String
  author_id : String
  content : String
  timestamp : String
  deriving DecidableEq, Repr

/-- Friend entry as sent in `FRIEND_ADDED` / `FRIENDS_LIST` payloads. -/
structure FriendInfo where
  id : String
  username : String
  status : String
  deriving DecidableEq, Repr

/-- Outbound frame payloads used by the handlers under verification. -/
inductive Payload where
  | msg (m : Message)
  | user (userId : String)
  | err (text : String)
  | call (callerId : String) (offer : String) (callType : String)
  | incoming (fromUserId : Nat) (fromUsername : String) (callType : String)
  | friendAdded (f : FriendInfo)
  | friendsList (l : List FriendInfo)
  deriving DecidableEq, Repr

/-- One performed WebSocket send: recipient key, frame type, payload. -/
structure Delivery where
  dest : String
  ty : String
  payload : Payload
  deriving DecidableEq, Repr

/-- A Room.js session: `{ ws, userCode, username, friends }`. -/
structure Session where
  ws : Conn
  userCode : String
  username : String
  friends : List String
  deriving DecidableEq, Repr

/-- Values held by the Durable Object storage. -/
inductive StorageVal where
  | str (s : String)
  | strs (l : List String)
  | msgs (l : List Message)
  deriving DecidableEq, Repr

abbrev SessionMap := List (String × Session)
abbrev Storage := List (String × StorageVal)

/-- Room.js `handleMessage_Create` storage step, with the cap as a
parameter (Room.js uses 100, the in-memory worker variant uses 1000):
push the new message, then `if (channelMessages.length > cap)
channelMessages.shift()`. -/
def appendBounded (cap : Nat) (log : List Message) (m : Message) : List Message :=
  if cap < (log ++ [m]).length then (log ++ [m]).tail else log ++ [m]

/-- Room.js `sendToUser(userCode, type, payload)`: look the session up and
write only when `session.ws.readyState === 1`. -/
def sendToUser (sessions : SessionMap) (userCode ty : String) (p : Payload) :
    List Delivery :=
  match lookupMap sessions userCode with
  | some session => if session.ws.readyState = 1 then [⟨userCode, ty, p⟩] else []
  | none => []

/-- Room.js `broadcast(type, payload)`: iterate every session in insertion
order, writing only to sockets with `readyState === 1`. -/
def broadcast (sessions : SessionMap) (ty : String) (p : Payload) :
    List Delivery :=
  sessions.filterMap fun q =>
    if q.2.ws.readyState = 1 then some ⟨q.1, ty, p⟩ else none

/-- Room.js `broadcastToFriends(userCode, type, payload)`: resolve the
sender's session (returning silently when absent), then write to each
friend whose session exists and is open. -/
def broadcastToFriends (sessions : SessionMap) (userCode ty : String)
    (p : Payload) : List Delivery :=
  match lookupMap sessions userCode with
  | none => []
  | some session =>
    session.friends.filterMap fun f =>
      match lookupMap sessions f with
      | some fs => if fs.ws.readyState = 1 then some ⟨f, ty, p⟩ else none
      | none => none

/-- Stored friends list `friends:<code>`, when present. -/
def getStoredFriends (storage : Storage) (code : String) : Option (List String) :=
  match lookupMap storage ("friends:" ++ code) with
  | some (.strs l) => some l
  | _ => none

/-- Stored display name `username:<code>`, when present. -/
def getUsername (storage : Storage) (code : String) : Option String :=
  match lookupMap storage ("username:" ++ code) with
  | some (.str s) => some s
  | _ => none

/-- The storage key under which `handleMessage_Create` persists a channel
log: the literal template `messages:${channelId}`. -/
def messagesKey (channelId : String) : String :=
  "messages:" ++ channelId

/-- Stored channel log `messages:<channelId>`, when present. -/
def getMsgs (storage : Storage) (channelId : String) : Option (List Message) :=
  match lookupMap storage (messagesKey channelId) with
  | some (.msgs l) => some l
  | _ => none

/-- Room.js `fetch` on `/websocket`, session-creation part: build the
session record (default username `User` + first four characters of the
code, friends loaded from storage) and `this.sessions.set(userCode,
session)` — an existing binding for the same code is replaced. -/
def registerSession (sessions : SessionMap) (storage : Storage)
    (userCode : String) (server : Conn) : SessionMap :=
  let session : Session :=
    { ws := server
      userCode := userCode
      username := "User" ++ jsTake userCode 4
      friends := (getStoredFriends storage userCode).getD [] }
  mapSet sessions userCode session

/-- Room.js `close` listener: `this.sessions.delete(userCode)` followed by
a `broadcastToFriends` call announcing `FRIEND_OFFLINE` with the user id
— note the broadcast runs on the map from which the session was already
deleted.  Returns the new session map and the performed deliveries. -/
def handleClose (sessions : SessionMap) (userCode : String) :
    SessionMap × List Delivery :=
  let sessions2 := mapDelete sessions userCode
  (sessions2,
    broadcastToFriends sessions2 userCode "FRIEND_OFFLINE" (.user userCode))

/-- Room.js `handleMessage_Create(userCode, payload)`.  The fresh `id` and
`timestamp` (clock/random in the source) enter as parameters.  Returns the
updated storage and the deliveries in emission order.  In the DM branch the
source removes the first `dm-` occurrence via replace; under the `startsWith`
guard this removes the three-character head, embedded as `jsDrop channelId 3`. -/
def handleMessage_Create (sessions : SessionMap) (storage : Storage)
    (userCode : String) (channelId content msgId timestamp : String) :
    Storage × List Delivery :=
  match lookupMap sessions userCode with
  | none => (storage, [])
  | some _ =>
    let message : Message :=
      { id := msgId
        channel_id := channelId
        author_id := userCode
        content := content
        timestamp := timestamp }
    let channelMessages := (getMsgs storage channelId).getD []
    let channelMessages := appendBounded 100 channelMessages message
    let storage2 := mapSet storage (messagesKey channelId) (.msgs channelMessages)
    let deliveries :=
      if jsStartsWith channelId "dm-" then
        let recipientCode := jsDrop channelId 3
        sendToUser sessions userCode "MESSAGE_CREATE" (.msg message) ++
        (if (lookupMap sessions recipientCode).isSome then
          sendToUser sessions recipientCode "MESSAGE_CREATE"
            (.msg { message with channel_id := "dm-" ++ userCode })
        else [])
      else
        broadcast sessions "MESSAGE_CREATE" (.msg message)
    (storage2, deliveries)

/-- Room.js `handleCallOffer(userCode, payload)`: forward `INCOMING_CALL`
only when the target has a session; otherwise do nothing at all. -/
def handleCallOffer (sessions : SessionMap) (userCode targetUserId offer callType : String) :
    List Delivery :=
  if (lookupMap sessions targetUserId).isSome then
    sendToUser sessions targetUserId "INCOMING_CALL" (.call userCode offer callType)
  else []

/-- Socket.io variant, the `call-user` socket handler: `activeUsers` maps numeric
user ids to socket ids; an online target receives `incoming-call`, an
offline target makes the handler emit `call-error` back on the caller's own
socket.  The call type defaults to `voice` when missing or empty. -/
def callUser (activeUsers : List (Nat × String)) (senderSocketId : String)
    (senderUserId : Nat) (senderUsername : String) (targetUserId : Nat)
    (callType : Option String) : List Delivery :=
  match lookupMap activeUsers targetUserId with
  | some targetSocketId =>
    [⟨targetSocketId, "incoming-call",
      .incoming senderUserId senderUsername
        (match callType with
          | none => "voice"
          | some s => if s.isEmpty then "voice" else s)⟩]
  | none => [⟨senderSocketId, "call-error", .err "Пользователь не в сети"⟩]

/-- Room.js `sendFriendsList(userCode)`: one `FRIENDS_LIST` frame whose
entries carry the stored username (falling back to the default when absent
or empty, via `||`) and an online/offline status from session presence. -/
def sendFriendsList (sessions : SessionMap) (storage : Storage)
    (userCode : String) : List Delivery :=
  match lookupMap sessions userCode with
  | none => []
  | some session =>
    let friends := session.friends.map fun f =>
      { id := f
        username :=
          match getUsername storage f with
          | none => "User" ++ jsTake f 4
          | some s => if s.isEmpty then "User" ++ jsTake f 4 else s
        status := if (lookupMap sessions f).isSome then "online" else "offline"
        : FriendInfo }
    sendToUser sessions userCode "FRIENDS_LIST" (.friendsList friends)

/-- The Russian user-not-found text sent by `handleAddFriend`. -/
def errUserNotFound : String :=
  "Пользователь с таким кодом не найден. Убедитесь, что он зарегистрировался."

/-- Room.js `handleAddFriend(userCode, friendCode)`.  Returns the updated
session map, updated storage and the deliveries in emission order.  The
guard `if (!friendUsername)` treats both an absent and an empty stored
username as not found. -/
def handleAddFriend (sessions : SessionMap) (storage : Storage)
    (userCode friendCode : String) : SessionMap × Storage × List Delivery :=
  match lookupMap sessions userCode with
  | none => (sessions, storage, [])
  | some session =>
    let friendUsername := getUsername storage friendCode
    if jsFalsy friendUsername then
      (sessions, storage, sendToUser sessions userCode "ERROR" (.err errUserNotFound))
    else
      let session2 := { session with friends := setAdd session.friends friendCode }
      let sessions2 := mapSet sessions userCode session2
      let storage2 :=
        mapSet storage ("friends:" ++ userCode) (.strs session2.friends)
      let friendOnline := (lookupMap sessions2 friendCode).isSome
      let stateAfter :=
        match lookupMap sessions2 friendCode with
        | some friendSession =>
          let fs2 := { friendSession with friends := setAdd friendSession.friends userCode }
          (mapSet sessions2 friendCode fs2,
           mapSet storage2 ("friends:" ++ friendCode) (.strs fs2.friends))
        | none =>
          let friendFriends := (getStoredFriends storage2 friendCode).getD []
          if userCode ∈ friendFriends then (sessions2, storage2)
          else
            (sessions2,
             mapSet storage2 ("friends:" ++ friendCode)
               (.strs (friendFriends ++ [userCode])))
      let sessions3 := stateAfter.1
      let storage3 := stateAfter.2
      let d1 := sendToUser sessions3 userCode "FRIEND_ADDED"
        (.friendAdded
          { id := friendCode
            username := friendUsername.getD ""
            status := if friendOnline then "online" else "offline" })
      let d2 :=
        if friendOnline then
          sendToUser sessions3 friendCode "FRIEND_ADDED"
            (.friendAdded { id := userCode, username := session2.username, status := "online" })
        else []
      let d3 := sendFriendsList sessions3 storage3 userCode
      let d4 := if friendOnline then sendFriendsList sessions3 storage3 friendCode else []
      (sessions3, storage3, d1 ++ d2 ++ d3 ++ d4)

/-- A client socket of the in-memory room worker variant. -/
structure Client where
  clientId : Nat
  readyState : Nat
  deriving DecidableEq, Repr

/-- In-memory worker variant, `broadcast(room, message, excludeWs)`: write
to every client of the room other than `excludeWs` whose `readyState === 1`;
returns the clients actually written to, in iteration order. -/
def broadcastRoomVariant (clients : List Client) (excludeWs : Option Client) :
    List Client :=
  clients.filter fun ws => some ws ≠ excludeWs ∧ ws.readyState = 1

/-! ### Lemmas about the `Map` model -/

theorem lookupMap_mapSet_self {κ α : Type} [DecidableEq κ]
    (l : List (κ × α)) (k : κ) (v : α) :
    lookupMap (mapSet l k v) k = some v := by
  induction l with
  | nil => simp [mapSet, lookupMap]
  | cons p rest ih =>
    by_cases h : p.1 = k
    · simp [mapSet, lookupMap, h]
    · simp [mapSet, lookupMap, h, ih]

theorem lookupMap_eq_none_of_not_mem {κ α : Type} [DecidableEq κ]
    {l : List (κ × α)} {k : κ} (h : k ∉ l.map Prod.fst) :
    lookupMap l k = none := by
  induction l with
  | nil => rfl
  | cons p rest ih =>
    simp only [List.map_cons, List.mem_cons] at h
    push_neg at h
    have hp : ¬ p.1 = k := fun he => h.1 he.symm
    simp [lookupMap, hp, ih h.2]

theorem countKey_nil {κ α : Type} [DecidableEq κ] (k : κ) :
    countKey ([] : List (κ × α)) k = 0 := rfl

theorem countKey_cons_eq {κ α : Type} [DecidableEq κ]
    (p : κ × α) (rest : List (κ × α)) {k : κ} (hp : p.1 = k) :
    countKey (p :: rest) k = countKey rest k + 1 := by
  simp [countKey, List.filter_cons, hp]

theorem countKey_cons_ne {κ α : Type} [DecidableEq κ]
    (p : κ × α) (rest : List (κ × α)) {k : κ} (hp : ¬ p.1 = k) :
    countKey (p :: rest) k = countKey rest k := by
  simp [countKey, List.filter_cons, hp]

theorem countKey_eq_zero_of_not_mem {κ α : Type} [DecidableEq κ]
    {l : List (κ × α)} {k : κ} (h : k ∉ l.map Prod.fst) :
    countKey l k = 0 := by
  induction l with
  | nil => rfl
  | cons p rest ih =>
    simp only [List.map_cons, List.mem_cons] at h
    push_neg at h
    have hp : ¬ p.1 = k := fun he => h.1 he.symm
    rw [countKey_cons_ne p rest hp]
    exact ih h.2

theorem keysNodup_countKey_le_one {κ α : Type} [DecidableEq κ]
    {l : List (κ × α)} (h : keysNodup l) (k : κ) :
    countKey l k ≤ 1 := by
  induction l with
  | nil => simp [countKey_nil]
  | cons p rest ih =>
    simp only [keysNodup, List.map_cons, List.nodup_cons] at h
    by_cases hk : p.1 = k
    · have hz : countKey rest k = 0 :=
        countKey_eq_zero_of_not_mem (hk ▸ h.1)
      rw [countKey_cons_eq p rest hk, hz]
    · rw [countKey_cons_ne p rest hk]
      exact ih h.2

theorem countKey_mapSet_self {κ α : Type} [DecidableEq κ]
    {l : List (κ × α)} {k : κ} (v : α) (h : countKey l k ≤ 1) :
    countKey (mapSet l k v) k = 1 := by
  induction l with
  | nil => simp [mapSet, countKey, List.filter_cons]
  | cons p rest ih =>
    by_cases hk : p.1 = k
    · have hz : countKey rest k = 0 := by
        rw [countKey_cons_eq p rest hk] at h
        omega
      simp only [mapSet, hk, if_pos]
      rw [countKey_cons_eq (k, v) rest rfl, hz]
    · rw [countKey_cons_ne p rest hk] at h
      simp only [mapSet, hk, if_neg, ite_false]
      rw [countKey_cons_ne p _ hk]
      exact ih h

theorem lookupMap_mapDelete_self {κ α : Type} [DecidableEq κ]
    {l : List (κ × α)} (h : keysNodup l) (k : κ) :
    lookupMap (mapDelete l k) k = none := by
  induction l with
  | nil => rfl
  | cons p rest ih =>
    simp only [keysNodup, List.map_cons, List.nodup_cons] at h
    by_cases hk : p.1 = k
    · simpa [mapDelete, hk] using lookupMap_eq_none_of_not_mem (hk ▸ h.1)
    · simp [mapDelete, lookupMap, hk, ih h.2]

theorem mapDelete_of_lookup_none {κ α : Type} [DecidableEq κ]
    {l : List (κ × α)} {k : κ} (h : lookupMap l k = none) :
    mapDelete l k = l := by
  induction l with
  | nil => rfl
  | cons p rest ih =>
    by_cases hk : p.1 = k
    · simp [lookupMap, hk] at h
    · simp only [lookupMap, hk, if_false] at h
      simp [mapDelete, hk, ih h]

/-! ### Lemmas about strings and the bounded log -/

theorem isPrefixOf_append_self (l1 l2 : List Char) :
    l1.isPrefixOf (l1 ++ l2) = true := by
  simp [List.isPrefixOf_iff_prefix]

theorem jsStartsWith_dm (s : String) :
    jsStartsWith ("dm-" ++ s) "dm-" = true := by
  show ("dm-".data).isPrefixOf (("dm-" ++ s).data) = true
  rw [String.data_append]
  exact isPrefixOf_append_self "dm-".data s.data

theorem jsDrop_dm (s : String) : jsDrop ("dm-" ++ s) 3 = s := by
  apply String.ext
  show (("dm-" ++ s).data).drop 3 = s.data
  have h3 : "dm-".data.length = 3 := rfl
  rw [String.data_append, ← h3, List.drop_left]

theorem string_append_cancel (p a b : String) : p ++ a = p ++ b ↔ a = b := by
  constructor
  · intro h
    have hd := congrArg String.data h
    simp only [String.data_append] at hd
    exact String.ext (List.append_cancel_left hd)
  · intro h; rw [h]

theorem length_appendBounded_le (cap : Nat) (log : List Message) (m : Message)
    (h : log.length ≤ cap) : (appendBounded cap log m).length ≤ cap := by
  by_cases hc : cap < (log ++ [m]).length
  · simp only [appendBounded, hc, if_pos]
    simp only [List.length_tail, List.length_append, List.length_cons,
      List.length_nil]
    omega
  · simp only [appendBounded, hc, if_neg, ite_false]
    simp only [List.length_append, List.length_cons, List.length_nil] at hc ⊢
    omega

theorem length_foldl_appendBounded_le (cap : Nat) (L : List Message) :
    ∀ acc : List Message, acc.length ≤ cap →
      (L.foldl (appendBounded cap) acc).length ≤ cap := by
  induction L with
  | nil => intro acc h; simpa using h
  | cons m L ih =>
    intro acc h
    simpa [List.foldl_cons] using ih _ (length_appendBounded_le cap acc m h)

theorem tail_drop_append {α : Type} (L : List α) (m : α) :
    ∀ k : Nat, k ≤ L.length →
      (L.drop k ++ [m]).tail = (L ++ [m]).drop (k + 1) := by
  induction L with
  | nil =>
    intro k hk
    have hk0 : k = 0 := by simpa using hk
    subst hk0
    simp
  | cons a L ih =>
    intro k hk
    match k with
    | 0 => simp
    | k + 1 =>
      simp only [List.drop_succ_cons, List.cons_append]
      exact ih k (by simpa using hk)

theorem foldl_appendBounded_nil (cap : Nat) (L : List Message) :
    L.foldl (appendBounded cap) [] = L.drop (L.length - cap) := by
  induction L using List.reverseRecOn with
  | nil => simp
  | append_singleton L m ih =>
    rw [List.foldl_append, List.foldl_cons, List.foldl_nil, ih]
    by_cases hlt : L.length < cap
    · have h0 : L.length - cap = 0 := by omega
      rw [h0, List.drop_zero]
      have hc : ¬ cap < (L ++ [m]).length := by
        simp only [List.length_append, List.length_cons, List.length_nil]
        omega
      simp only [appendBounded, hc, ite_false]
      have h1 : (L ++ [m]).length - cap = 0 := by
        simp only [List.length_append, List.length_cons, List.length_nil]
        omega
      rw [h1, List.drop_zero]
    · have hge : cap ≤ L.length := by omega
      have hk : L.length - cap ≤ L.length := Nat.sub_le _ _
      have hc : cap < (L.drop (L.length - cap) ++ [m]).length := by
        simp only [List.length_append, List.length_drop, List.length_cons,
          List.length_nil]
        omega
      simp only [appendBounded, hc, if_pos]
      rw [tail_drop_append L m _ hk]
      congr 1
      simp only [List.length_append, List.length_cons, List.length_nil]
      omega

theorem lookupMap_mem {κ α : Type} [DecidableEq κ]
    {l : List (κ × α)} {k : κ} {v : α} (h : lookupMap l k = some v) :
    (k, v) ∈ l := by
  induction l with
  | nil => simp [lookupMap] at h
  | cons p rest ih =>
    by_cases hk : p.1 = k
    · simp only [lookupMap, hk, if_pos, Option.some.injEq] at h
      subst h
      have : p = (k, p.2) := by
        cases p; simp_all
      rw [this] at *
      exact List.mem_cons_self _ _
    · simp only [lookupMap, hk, if_neg, ite_false] at h
      exact List.mem_cons_of_mem _ (ih h)

theorem mem_appendBounded_100 (log : List Message) (m : Message) :
    m ∈ appendBounded 100 log m := by
  by_cases hc : 100 < (log ++ [m]).length
  · simp only [appendBounded, hc, if_pos]
    match log with
    | [] => simp at hc
    | a :: log2 => simp
  · rw [appendBounded, if_neg hc]
    simp

/-! ### Concrete fixtures used by witnesses and counterexamples -/

/-- A sample message with a given id. -/
def sampleMsg (n : String) : Message :=
  { id := n, channel_id := "c", author_id := "a", content := "x", timestamp := "t" }

/-- Seven sample messages (cap 2 plus five). -/
def sampleLog7 : List Message :=
  [sampleMsg "1", sampleMsg "2", sampleMsg "3", sampleMsg "4",
   sampleMsg "5", sampleMsg "6", sampleMsg "7"]

/-- An open connection with a given id. -/
def openConn (n : Nat) : Conn := { connId := n, readyState := 1 }

/-- An open session for `alice`, friend of `bob`. -/
def aliceSession : Session :=
  { ws := openConn 1, userCode := "alice", username := "Userali",
    friends := ["bob"] }

/-- An open session for `bob`, friend of `alice`. -/
def bobSession : Session :=
  { ws := openConn 2, userCode := "bob", username := "Userbob",
    friends := ["alice"] }

/-- Two open sessions `alice` and `bob`, mutual friends. -/
def sampleSessions : SessionMap :=
  [("alice", aliceSession), ("bob", bobSession)]

/-! ### Claims -/

/-- C1: for every room log reachable under the cap and every sequence of
`MESSAGE_CREATE` submissions, the stored log never exceeds the configured
cap; appending cap + 5 messages to a fresh room leaves exactly cap
messages, the oldest five evicted first, and the remaining messages in
their original relative order (the log equals `L.drop 5`). -/
theorem bounded_history_c1 (cap : Nat) (acc L : List Message)
    (hacc : acc.length ≤ cap) :
    (L.foldl (appendBounded cap) acc).length ≤ cap ∧
    (L.length = cap + 5 →
      L.foldl (appendBounded cap) [] = L.drop 5 ∧
      (L.foldl (appendBounded cap) []).length = cap) := by
  refine ⟨length_foldl_appendBounded_le cap L acc hacc, fun hL => ?_⟩
  have h5 : L.length - cap = 5 := by omega
  have hfold := foldl_appendBounded_nil cap L
  rw [h5] at hfold
  refine ⟨hfold, ?_⟩
  rw [hfold, List.length_drop]
  omega

/-- Witness for C1 at cap 2 with seven concrete messages. -/
theorem bounded_history_c1_witness :
    ([] : List Message).length ≤ 2 ∧
    ((sampleLog7.foldl (appendBounded 2) []).length ≤ 2 ∧
      (sampleLog7.length = 2 + 5 →
        sampleLog7.foldl (appendBounded 2) [] = sampleLog7.drop 5 ∧
        (sampleLog7.foldl (appendBounded 2) []).length = 2)) :=
  ⟨by decide, bounded_history_c1 2 [] sampleLog7 (by decide)⟩

/-- C4: two successive registrations of the same user code leave the
registry resolving that code to exactly one session — the one holding the
latest connection `c2` — and exactly one binding for the code. -/
theorem duplicate_registration_c4 (sessions : SessionMap) (storage : Storage)
    (U : String) (c1 c2 : Conn) (h : keysNodup sessions) :
    (lookupMap (registerSession (registerSession sessions storage U c1)
        storage U c2) U).map Session.ws = some c2 ∧
    countKey (registerSession (registerSession sessions storage U c1)
        storage U c2) U = 1 := by
  constructor
  · rw [registerSession, lookupMap_mapSet_self]
    rfl
  · rw [registerSession, registerSession]
    exact countKey_mapSet_self _
      (le_of_eq (countKey_mapSet_self _ (keysNodup_countKey_le_one h U)))

/-- Witness for C4 on a concrete one-entry registry. -/
theorem duplicate_registration_c4_witness :
    keysNodup sampleSessions ∧
    ((lookupMap (registerSession (registerSession sampleSessions [] "u"
        (openConn 7)) [] "u" (openConn 8)) "u").map Session.ws =
        some (openConn 8) ∧
      countKey (registerSession (registerSession sampleSessions [] "u"
        (openConn 7)) [] "u" (openConn 8)) "u" = 1) :=
  ⟨by decide,
   duplicate_registration_c4 sampleSessions [] "u" (openConn 7) (openConn 8)
     (by decide)⟩

/-- C8: removal is idempotent — deleting an absent user code is a no-op
that emits nothing, and running the disconnect handler twice leaves the
registry exactly as one run does while the second run emits no
`FRIEND_OFFLINE` at all. -/
theorem idempotent_disconnect_c8 (sessions : SessionMap) (U : String)
    (h : keysNodup sessions) :
    (lookupMap sessions U = none → handleClose sessions U = (sessions, [])) ∧
    (handleClose (handleClose sessions U).1 U).1 = (handleClose sessions U).1 ∧
    (handleClose (handleClose sessions U).1 U).2 = [] := by
  have h1 : lookupMap (mapDelete sessions U) U = none :=
    lookupMap_mapDelete_self h U
  refine ⟨fun h0 => ?_, ?_, ?_⟩
  · rw [handleClose, mapDelete_of_lookup_none h0, broadcastToFriends, h0]
  · show mapDelete (mapDelete sessions U) U = mapDelete sessions U
    exact mapDelete_of_lookup_none h1
  · show broadcastToFriends (mapDelete (mapDelete sessions U) U) U
      "FRIEND_OFFLINE" (.user U) = []
    rw [mapDelete_of_lookup_none h1, broadcastToFriends, h1]

/-- Witness for C8 on the concrete two-entry registry. -/
theorem idempotent_disconnect_c8_witness :
    keysNodup sampleSessions ∧
    ((lookupMap sampleSessions "carol" = none →
        handleClose sampleSessions "carol" = (sampleSessions, [])) ∧
      (handleClose (handleClose sampleSessions "carol").1 "carol").1 =
        (handleClose sampleSessions "carol").1 ∧
      (handleClose (handleClose sampleSessions "carol").1 "carol").2 = []) :=
  ⟨by decide, idempotent_disconnect_c8 sampleSessions "carol" (by decide)⟩

/-- C2: a `MESSAGE_CREATE` on channel `dm-B` from a registered, open sender
`A` to a registered, open recipient `B` produces exactly two deliveries, in
order: one to `A` carrying the channel id as submitted and one to `B` with
the channel id rewritten to `dm-A`, both with identical content and
`author_id = A`. -/
theorem dm_delivery_c2 (sessions : SessionMap) (storage : Storage)
    (A B content msgId ts : String) (sA sB : Session)
    (hA : lookupMap sessions A = some sA) (hA1 : sA.ws.readyState = 1)
    (hB : lookupMap sessions B = some sB) (hB1 : sB.ws.readyState = 1) :
    (handleMessage_Create sessions storage A ("dm-" ++ B) content msgId ts).2 =
      [⟨A, "MESSAGE_CREATE",
        .msg { id := msgId, channel_id := "dm-" ++ B, author_id := A,
               content := content, timestamp := ts }⟩,
       ⟨B, "MESSAGE_CREATE",
        .msg { id := msgId, channel_id := "dm-" ++ A, author_id := A,
               content := content, timestamp := ts }⟩] := by
  rw [handleMessage_Create, hA]
  simp only [jsStartsWith_dm, jsDrop_dm, hB, Option.isSome_some, ite_true]
  simp [sendToUser, hA, hB, hA1, hB1]

/-- Witness for C2: alice sends `hi` to bob on `dm-bob`. -/
theorem dm_delivery_c2_witness :
    lookupMap sampleSessions "alice" = some aliceSession ∧
    aliceSession.ws.readyState = 1 ∧
    lookupMap sampleSessions "bob" = some bobSession ∧
    bobSession.ws.readyState = 1 ∧
    (handleMessage_Create sampleSessions [] "alice" ("dm-" ++ "bob") "hi" "m1"
        "t1").2 =
      [⟨"alice", "MESSAGE_CREATE",
        .msg { id := "m1", channel_id := "dm-" ++ "bob", author_id := "alice",
               content := "hi", timestamp := "t1" }⟩,
       ⟨"bob", "MESSAGE_CREATE",
        .msg { id := "m1", channel_id := "dm-" ++ "alice", author_id := "alice",
               content := "hi", timestamp := "t1" }⟩] :=
  ⟨by decide, by decide, by decide, by decide,
   dm_delivery_c2 sampleSessions [] "alice" "bob" "hi" "m1" "t1"
     aliceSession bobSession (by decide) (by decide) (by decide) (by decide)⟩

/-- Storage after alice sends `hi` on `dm-bob` into an empty store. -/
def c3Store1 : Storage :=
  (handleMessage_Create sampleSessions [] "alice" "dm-bob" "hi" "m1" "t1").1

/-- Storage after bob then sends `yo` on `dm-alice`. -/
def c3Store2 : Storage :=
  (handleMessage_Create sampleSessions c3Store1 "bob" "dm-alice" "yo" "m2"
    "t2").1

/-- Counterexample to C3: the two directions of the same conversation are
persisted under two different storage keys, each log holding only its own
direction's message — the room key is the literal channel-id string, not an
unordered-pair canonicalization. -/
theorem dm_canonicalization_c3_cex :
    c3Store2.map Prod.fst = ["messages:dm-bob", "messages:dm-alice"] ∧
    messagesKey "dm-bob" ≠ messagesKey "dm-alice" ∧
    getMsgs c3Store2 "dm-bob" =
      some [{ id := "m1", channel_id := "dm-bob", author_id := "alice",
              content := "hi", timestamp := "t1" }] ∧
    getMsgs c3Store2 "dm-alice" =
      some [{ id := "m2", channel_id := "dm-alice", author_id := "bob",
              content := "yo", timestamp := "t2" }] := by
  decide

/-- C3 amended: the room key is derived from the literal channel-id string
(`messages:${channelId}`), so a message from A on `dm-B` and a message from
B on `dm-A` are persisted into the same log exactly when `A = B`; the logs
of the two directions of a DM conversation between distinct users are
disjoint. -/
theorem dm_storage_key_c3_amended (sessions : SessionMap) (storage : Storage)
    (u ch content msgId ts : String) (s : Session)
    (h : lookupMap sessions u = some s) :
    (handleMessage_Create sessions storage u ch content msgId ts).1 =
      mapSet storage (messagesKey ch)
        (.msgs (appendBounded 100 ((getMsgs storage ch).getD [])
          { id := msgId, channel_id := ch, author_id := u, content := content,
            timestamp := ts })) ∧
    (∀ A B : String, (messagesKey ("dm-" ++ B) = messagesKey ("dm-" ++ A)) ↔
      B = A) := by
  constructor
  · rw [handleMessage_Create, h]
  · intro A B
    rw [messagesKey, messagesKey, string_append_cancel, string_append_cancel]

/-- Witness for C3's amended statement on concrete data. -/
theorem dm_storage_key_c3_amended_witness :
    lookupMap sampleSessions "alice" = some aliceSession ∧
    ((handleMessage_Create sampleSessions [] "alice" "dm-bob" "hi" "m1" "t1").1 =
      mapSet [] (messagesKey "dm-bob")
        (.msgs (appendBounded 100 ((getMsgs [] "dm-bob").getD [])
          { id := "m1", channel_id := "dm-bob", author_id := "alice",
            content := "hi", timestamp := "t1" })) ∧
     (∀ A B : String, (messagesKey ("dm-" ++ B) = messagesKey ("dm-" ++ A)) ↔
       B = A)) :=
  ⟨by decide,
   dm_storage_key_c3_amended sampleSessions [] "alice" "dm-bob" "hi" "m1" "t1"
     aliceSession (by decide)⟩

/-- C5 (code bug): disconnecting `alice` — who has the open, connected
friend `bob` — emits no `FRIEND_OFFLINE` at all, because the close handler
deletes alice's session before `broadcastToFriends` looks it up; the same
broadcast run on the registry as it stood before the deletion would have
reached bob, which is what the handler evidently intended. -/
theorem offline_broadcast_c5_bug :
    (handleClose sampleSessions "alice").2 = [] ∧
    broadcastToFriends sampleSessions "alice" "FRIEND_OFFLINE"
        (.user "alice") =
      [⟨"bob", "FRIEND_OFFLINE", .user "alice"⟩] := by
  decide

/-- Reading back the log just written by `handleMessage_Create`. -/
theorem getMsgs_mapSet (storage : Storage) (ch : String) (lst : List Message) :
    getMsgs (mapSet storage (messagesKey ch) (.msgs lst)) ch = some lst := by
  rw [getMsgs, lookupMap_mapSet_self]

/-- Counterexample to C6: an empty-content `MESSAGE_CREATE` from a
registered open sender is not rejected — a message is built, appended to
the channel log, and delivered. -/
theorem empty_content_c6_cex :
    (handleMessage_Create sampleSessions [] "alice" "global" "" "m1" "t1").2 ≠
      [] ∧
    getMsgs (handleMessage_Create sampleSessions [] "alice" "global" "" "m1"
        "t1").1 "global" =
      some [{ id := "m1", channel_id := "global", author_id := "alice",
              content := "", timestamp := "t1" }] := by
  decide

/-- C6 amended: `handleMessage_Create` performs no content validation — a
submission with empty content from a registered sender with an open
connection builds a Message with `content = ""`, appends it to the room
log, and delivers it (at least to the sender) exactly like any other
message. -/
theorem empty_content_c6_amended (sessions : SessionMap) (storage : Storage)
    (u ch msgId ts : String) (s : Session)
    (h : lookupMap sessions u = some s) (h1 : s.ws.readyState = 1) :
    ({ id := msgId, channel_id := ch, author_id := u, content := "",
       timestamp := ts } : Message) ∈
      (getMsgs (handleMessage_Create sessions storage u ch "" msgId ts).1
        ch).getD [] ∧
    (⟨u, "MESSAGE_CREATE",
      .msg { id := msgId, channel_id := ch, author_id := u, content := "",
             timestamp := ts }⟩ : Delivery) ∈
      (handleMessage_Create sessions storage u ch "" msgId ts).2 := by
  constructor
  · simp only [handleMessage_Create, h]
    rw [getMsgs_mapSet]
    exact mem_appendBounded_100 _ _
  · simp only [handleMessage_Create, h]
    by_cases hdm : jsStartsWith ch "dm-" = true
    · simp only [hdm, ite_true]
      apply List.mem_append_left
      simp [sendToUser, h, h1]
    · simp only [hdm, ite_false]
      exact List.mem_filterMap.mpr ⟨(u, s), lookupMap_mem h, by simp [h1]⟩

/-- Witness for C6's amended statement: alice submits empty content on the
global channel. -/
theorem empty_content_c6_amended_witness :
    lookupMap sampleSessions "alice" = some aliceSession ∧
    aliceSession.ws.readyState = 1 ∧
    (({ id := "m1", channel_id := "global", author_id := "alice",
        content := "", timestamp := "t1" } : Message) ∈
      (getMsgs (handleMessage_Create sampleSessions [] "alice" "global" ""
        "m1" "t1").1 "global").getD [] ∧
    (⟨"alice", "MESSAGE_CREATE",
      .msg { id := "m1", channel_id := "global", author_id := "alice",
             content := "", timestamp := "t1" }⟩ : Delivery) ∈
      (handleMessage_Create sampleSessions [] "alice" "global" "" "m1"
        "t1").2) :=
  ⟨by decide, by decide,
   empty_content_c6_amended sampleSessions [] "alice" "global" "m1" "t1"
     aliceSession (by decide) (by decide)⟩

/-- Counterexample to C7: a `CALL_OFFER` from registered, open `alice` to
the unregistered target `carol` produces no deliveries at all — in
particular no `ERROR`/`call-error` back to the sender. -/
theorem call_offer_c7_cex :
    handleCallOffer sampleSessions "alice" "carol" "sdp" "video" = [] := by
  decide

/-- C7 amended: with an unregistered target, neither relay delivers
anything to the target; the Durable Object relay (`handleCallOffer`)
silently drops the offer with no error to the sender, while the socket.io
variant (`call-user`) emits `call-error` back on the sender's socket. -/
theorem call_offer_c7_amended (sessions : SessionMap)
    (sender target offer ct : String)
    (h : lookupMap sessions target = none) :
    handleCallOffer sessions sender target offer ct = [] ∧
    (∀ (activeUsers : List (Nat × String)) (sock : String) (uid : Nat)
        (uname : String) (tgt : Nat) (ctype : Option String),
      lookupMap activeUsers tgt = none →
      callUser activeUsers sock uid uname tgt ctype =
        [⟨sock, "call-error", .err "Пользователь не в сети"⟩]) := by
  refine ⟨?_, fun au sock uid uname tgt ctype h2 => ?_⟩
  · simp [handleCallOffer, h]
  · simp [callUser, h2]

/-- Witness for C7's amended statement on concrete data. -/
theorem call_offer_c7_amended_witness :
    lookupMap sampleSessions "carol" = none ∧
    (handleCallOffer sampleSessions "alice" "carol" "sdp" "video" = [] ∧
    (∀ (activeUsers : List (Nat × String)) (sock : String) (uid : Nat)
        (uname : String) (tgt : Nat) (ctype : Option String),
      lookupMap activeUsers tgt = none →
      callUser activeUsers sock uid uname tgt ctype =
        [⟨sock, "call-error", .err "Пользователь не в сети"⟩])) :=
  ⟨by decide,
   call_offer_c7_amended sampleSessions "alice" "carol" "sdp" "video"
     (by decide)⟩

/-- C9: every delivery performed by `sendToUser`, `broadcast` and
`broadcastToFriends` (Room.js), and by the in-memory room variant's
`broadcast`, goes to a connection whose readiness state is open
(`readyState = 1`); non-ready connections receive nothing. -/
theorem guarded_send_c9 :
    (∀ (sessions : SessionMap) (u ty : String) (p : Payload) (d : Delivery),
        d ∈ sendToUser sessions u ty p →
        ∃ s : Session, lookupMap sessions d.dest = some s ∧
          s.ws.readyState = 1) ∧
    (∀ (sessions : SessionMap) (ty : String) (p : Payload) (d : Delivery),
        d ∈ broadcast sessions ty p →
        ∃ q ∈ sessions, q.1 = d.dest ∧ q.2.ws.readyState = 1) ∧
    (∀ (sessions : SessionMap) (u ty : String) (p : Payload) (d : Delivery),
        d ∈ broadcastToFriends sessions u ty p →
        ∃ s : Session, lookupMap sessions d.dest = some s ∧
          s.ws.readyState = 1) ∧
    (∀ (clients : List Client) (ex : Option Client) (c : Client),
        c ∈ broadcastRoomVariant clients ex → c.readyState = 1) := by
  refine ⟨?_, ?_, ?_, ?_⟩
  · intro sessions u ty p d hd
    match hl : lookupMap sessions u with
    | none => simp [sendToUser, hl] at hd
    | some s =>
      simp only [sendToUser, hl] at hd
      by_cases h1 : s.ws.readyState = 1
      · rw [if_pos h1] at hd
        have : d = ⟨u, ty, p⟩ := List.mem_singleton.mp hd
        subst this
        exact ⟨s, hl, h1⟩
      · rw [if_neg h1] at hd
        simp at hd
  · intro sessions ty p d hd
    rw [broadcast] at hd
    obtain ⟨q, hq, hfq⟩ := List.mem_filterMap.mp hd
    by_cases h1 : q.2.ws.readyState = 1
    · rw [if_pos h1] at hfq
      have : d = ⟨q.1, ty, p⟩ := (Option.some_inj.mp hfq).symm
      subst this
      exact ⟨q, hq, rfl, h1⟩
    · rw [if_neg h1] at hfq
      simp at hfq
  · intro sessions u ty p d hd
    match hl : lookupMap sessions u with
    | none => simp [broadcastToFriends, hl] at hd
    | some session =>
      simp only [broadcastToFriends, hl] at hd
      obtain ⟨f, _, hff⟩ := List.mem_filterMap.mp hd
      match hf : lookupMap sessions f with
      | none => rw [hf] at hff; simp at hff
      | some fs =>
        simp only [hf] at hff
        by_cases h1 : fs.ws.readyState = 1
        · rw [if_pos h1] at hff
          have : d = ⟨f, ty, p⟩ := (Option.some_inj.mp hff).symm
          subst this
          exact ⟨fs, hf, h1⟩
        · rw [if_neg h1] at hff
          simp at hff
  · intro clients ex c hc
    rw [broadcastRoomVariant] at hc
    have := List.mem_filter.mp hc
    exact (of_decide_eq_true this.2).2

/-- Witness for C9, exercising all four senders on concrete data. -/
theorem guarded_send_c9_witness :
    (∃ s : Session, lookupMap sampleSessions "alice" = some s ∧
      s.ws.readyState = 1) ∧
    (∃ q ∈ sampleSessions, q.1 = "bob" ∧ q.2.ws.readyState = 1) ∧
    (∃ s : Session, lookupMap sampleSessions "bob" = some s ∧
      s.ws.readyState = 1) ∧
    (⟨5, 1⟩ : Client).readyState = 1 :=
  ⟨guarded_send_c9.1 sampleSessions "alice" "PING" (.user "x")
      ⟨"alice", "PING", .user "x"⟩ (by decide),
   guarded_send_c9.2.1 sampleSessions "PING" (.user "x")
      ⟨"bob", "PING", .user "x"⟩ (by decide),
   guarded_send_c9.2.2.1 sampleSessions "alice" "PING" (.user "x")
      ⟨"bob", "PING", .user "x"⟩ (by decide),
   guarded_send_c9.2.2.2 [⟨5, 1⟩, ⟨6, 0⟩] none ⟨5, 1⟩ (by decide)⟩

/-- C10: an `ADD_FRIEND` from the connected, open user `A` naming a friend
code with no `username:` entry in storage sends exactly one `ERROR` frame
back to `A` and leaves the session map and the storage unchanged. -/
theorem add_friend_unknown_c10 (sessions : SessionMap) (storage : Storage)
    (A F : String) (sA : Session)
    (hA : lookupMap sessions A = some sA) (h1 : sA.ws.readyState = 1)
    (hF : lookupMap storage ("username:" ++ F) = none) :
    handleAddFriend sessions storage A F =
      (sessions, storage, [⟨A, "ERROR", .err errUserNotFound⟩]) := by
  have hgu : getUsername storage F = none := by rw [getUsername, hF]
  simp only [handleAddFriend, hA, hgu, jsFalsy, ite_true]
  simp [sendToUser, hA, h1]

/-- Witness for C10: alice adds the unknown code `carol` against an empty
storage. -/
theorem add_friend_unknown_c10_witness :
    lookupMap sampleSessions "alice" = some aliceSession ∧
    aliceSession.ws.readyState = 1 ∧
    lookupMap ([] : Storage) ("username:" ++ "carol") = none ∧
    handleAddFriend sampleSessions [] "alice" "carol" =
      (sampleSessions, [], [⟨"alice", "ERROR", .err errUserNotFound⟩]) :=
  ⟨by decide, by decide, by decide,
   add_friend_unknown_c10 sampleSessions [] "alice" "carol" aliceSession
     (by decide) (by decide) (by decide)⟩

end NebulaChat
